import Mathlib

/-!
Verification of the multi-scheme authentication resolution layer of the
subnet-calculator repository.  The definitions below are shallow embeddings
of the Python source: the config getters in
api-fastapi-azure-function/config.py, the credential checks in
api-fastapi-azure-function/auth.py, the request dependency and middleware
in api-fastapi-azure-function/function_app.py, and the container-app
counterparts in app/auth_utils.py, app/routers/auth.py and app/main.py.
String handling mirrors Python str.strip and str.split semantics on the
ASCII whitespace set.
-/

namespace SubnetCalc

/-- ASCII whitespace set recognised by Python str.split and str.strip. -/
def pyIsSpace (c : Char) : Bool :=
  c = ' ' || c = '\t' || c = '\n' || c = '\r' || c = '\x0b' || c = '\x0c'

/-- Drop leading Python whitespace from a character list. -/
def dropL (cs : List Char) : List Char := cs.dropWhile pyIsSpace

/-- Remove leading and trailing Python whitespace, like str.strip. -/
def stripChars (cs : List Char) : List Char :=
  (dropL ((dropL cs).reverse)).reverse

/-- Embedding of Python str.strip with no argument. -/
def pyStrip (s : String) : String := String.mk (stripChars s.data)

/-- Embedding of Python str.lower, character by character. -/
def pyLower (s : String) : String := String.mk (s.data.map Char.toLower)

/-- Worker for whitespace splitting: accumulates the current word reversed. -/
def wordsAux : List Char → List Char → List String
  | cur, [] => if cur = [] then [] else [String.mk cur.reverse]
  | cur, c :: cs =>
    if pyIsSpace c then
      if cur = [] then wordsAux [] cs
      else String.mk cur.reverse :: wordsAux [] cs
    else wordsAux (c :: cur) cs

/-- Embedding of Python str.split with no argument: splits on whitespace
runs and discards empty pieces. -/
def pySplit (s : String) : List String := wordsAux [] s.data

/-- Split a character list on commas, keeping empty pieces, like the
Python expression s.split with a comma argument. -/
def splitComma : List Char → List (List Char)
  | [] => [[]]
  | c :: cs =>
    if c = ',' then [] :: splitComma cs
    else
      match splitComma cs with
      | [] => [[c]]
      | w :: ws => (c :: w) :: ws

/-- Embedding of Python str.split on a comma separator. -/
def pySplitComma (s : String) : List String :=
  (splitComma s.data).map (fun w => String.mk w)

/-- The AuthMethod enumeration from config.py. -/
inductive AuthMethod where
  | none
  | api_key
  | jwt
  | azure_swa
  | apim
  | azure_ad
deriving DecidableEq

/-- Outcome of the get_current_user dependency: a resolved identity or an
HTTPException with a status code and a detail string. -/
inductive AuthOutcome where
  | ok (identity : String)
  | fail (status : Nat) (detail : String)
deriving DecidableEq

/-- Outcome of a middleware: either the request passes on to its handler
or it is rejected with a status code and a detail string. -/
inductive MiddlewareResult where
  | pass
  | reject (status : Nat) (detail : String)
deriving DecidableEq

/-- An inbound HTTP request as the authentication layer sees it: a URL
path and a list of header name and value pairs. -/
structure HttpRequest where
  path : String
  headers : List (String × String)
deriving DecidableEq

/-- Header lookup on a request, first match wins. -/
def headerGet (req : HttpRequest) (name : String) : Option String :=
  (req.headers.find? (fun p => p.fst == name)).map Prod.snd

/-- Embedding of validate_api_key from auth.py: false on a missing or
empty key, strips the provided key, then a case-sensitive membership
test against the configured list. -/
def validate_api_key (api_key : Option String) (valid_keys : List String) : Bool :=
  match api_key with
  | Option.none => false
  | Option.some k =>
    if k = "" then false
    else if pyStrip k = "" then false
    else valid_keys.contains (pyStrip k)

/-- The fixed JWT algorithm allow-list from get_jwt_algorithm in config.py. -/
def validAlgorithms : List String :=
  ["HS256", "HS384", "HS512", "RS256", "RS384", "RS512", "ES256", "ES384", "ES512"]

/-- Embedding of get_jwt_test_users from config.py restricted to its
method dependence: when the configured method is not jwt the function
returns the empty map without reading the environment; otherwise it
returns the parsed JWT_TEST_USERS object, taken here as a given
association list. -/
def get_jwt_test_users (method : AuthMethod) (envUsers : List (String × String)) :
    List (String × String) :=
  if method ≠ AuthMethod.jwt then [] else envUsers

/-- Embedding of get_api_keys from config.py: for a method other than
api_key it returns the empty list; otherwise it strips the API_KEYS
value, fails when blank or unset, splits on commas, strips every entry,
discards empty entries, and fails when nothing survives. -/
def get_api_keys (method : AuthMethod) (apiKeysEnv : Option String) :
    Except String (List String) :=
  if method ≠ AuthMethod.api_key then Except.ok []
  else
    let apiKeysStr := pyStrip (apiKeysEnv.getD "")
    if apiKeysStr = "" then
      Except.error "API_KEYS environment variable required when AUTH_METHOD=api_key"
    else
      let keys := ((pySplitComma apiKeysStr).map pyStrip).filter (fun k => k ≠ "")
      if keys = [] then
        Except.error "API_KEYS cannot be empty when AUTH_METHOD=api_key"
      else Except.ok keys

/-- A signed token, modelled algebraically.  The spec treats the JOSE
primitive jwt.encode as a black box; the token value records the payload
together with the iat and exp claims added by create_access_token and
the key material and algorithm it was signed with. -/
structure Token where
  payload : List (String × String)
  iat : Int
  exp : Int
  secret : String
  algorithm : String
deriving DecidableEq

/-- Embedding of create_access_token from auth.py: copies the claim set,
adds iat from one clock read and exp from a second clock read plus the
lifetime, then signs.  Timestamps are integer Unix seconds; the lifetime
argument is in seconds, matching the timedelta the callers pass. -/
def create_access_token (data : List (String × String)) (secret_key : String)
    (algorithm : String) (expires_delta : Int) (now1 now2 : Int) : Token :=
  { payload := data
    iat := now1
    exp := now2 + expires_delta
    secret := secret_key
    algorithm := algorithm }

/-- Result of decoding a token: the distinct expired and invalid failures
raised by the JOSE primitive, or the verified payload. -/
inductive DecodeOutcome where
  | expired
  | invalid
  | ok (payload : List (String × String)) (iat exp : Int)
deriving DecidableEq

/-- Embedding of decode_access_token from auth.py over the algebraic
token model: the black-box jwt.decode verifies the signature against the
given secret and algorithm and rejects an expired token, otherwise it
returns the payload. -/
def decode_access_token (tok : Token) (secret_key : String) (algorithm : String)
    (now : Int) : DecodeOutcome :=
  if tok.secret ≠ secret_key ∨ tok.algorithm ≠ algorithm then DecodeOutcome.invalid
  else if tok.exp ≤ now then DecodeOutcome.expired
  else DecodeOutcome.ok tok.payload tok.iat tok.exp

/-- Embedding of verify_test_user from auth.py, parameterised by the
Argon2 verifier, which the source delegates to pwdlib. -/
def verify_test_user (verifyPwd : String → String → Bool)
    (username password : String) (test_users : List (String × String)) : Bool :=
  match test_users.lookup username with
  | Option.none => false
  | Option.some hashed => verifyPwd password hashed

/-- Result of decoding a presented bearer token inside get_current_user:
the two distinct JOSE failures, or the payload projected to its sub
claim, which is all the dependency reads. -/
inductive DecodeResult where
  | expired
  | invalid
  | payload (sub : Option String)
deriving DecidableEq

/-- Embedding of the AUTH_METHOD=jwt branch of get_current_user, which is
identical in function_app.py and app/auth_utils.py: reject a missing or
empty Authorization header, strip it, split it on whitespace, require the
bearer scheme case-insensitively, require exactly two parts, then decode
the second part and read its sub claim. -/
def jwtAuthenticate (decode : String → DecodeResult)
    (authorization : Option String) : AuthOutcome :=
  match authorization with
  | Option.none => AuthOutcome.fail 401 "Missing authorization header"
  | Option.some a =>
    if a = "" then AuthOutcome.fail 401 "Missing authorization header"
    else if pyStrip a = "" then AuthOutcome.fail 401 "Empty authorization header"
    else if (pySplit (pyStrip a)).length = 0
        ∨ pyLower ((pySplit (pyStrip a)).headD "") ≠ "bearer" then
      AuthOutcome.fail 401 "Invalid authorization scheme. Expected Bearer"
    else if (pySplit (pyStrip a)).length ≠ 2 then
      AuthOutcome.fail 401 "Invalid authorization header format"
    else
      match decode ((pySplit (pyStrip a)).getD 1 "") with
      | DecodeResult.expired => AuthOutcome.fail 401 "Token has expired"
      | DecodeResult.invalid => AuthOutcome.fail 401 "Invalid token"
      | DecodeResult.payload Option.none =>
        AuthOutcome.fail 401 "Could not validate credentials"
      | DecodeResult.payload (Option.some username) => AuthOutcome.ok username

/-- One entry of the nested claims list carried by an Azure SWA client
principal, as built by the test helpers and the APIM simulator. -/
structure SwaClaim where
  typ : String
  val : String
deriving DecidableEq

/-- The decoded x-ms-client-principal JSON object: the flat identity
fields and the optional nested claims list. -/
structure SwaPrincipal where
  userDetails : Option String
  userId : Option String
  claimsList : Option (List SwaClaim)
deriving DecidableEq

/-- Python truthiness for an optional string: present and nonempty. -/
def truthy : Option String → Bool
  | Option.none => false
  | Option.some s => s ≠ ""

/-- Embedding of the AUTH_METHOD=azure_swa branch of get_current_user,
identical in both variants.  The outer Option is header presence; the
inner Option is the result of base64 and JSON decoding.  The code reads
only the flat userDetails and userId fields of the decoded object. -/
def swaAuthenticate (principalHeader : Option (Option SwaPrincipal)) : AuthOutcome :=
  match principalHeader with
  | Option.none =>
    AuthOutcome.fail 401 "Azure SWA authentication required but no principal found"
  | Option.some Option.none =>
    AuthOutcome.fail 401 "Invalid Azure SWA principal: decode error"
  | Option.some (Option.some claims) =>
    let user := if truthy claims.userDetails then claims.userDetails else claims.userId
    if truthy user then AuthOutcome.ok (user.getD "")
    else AuthOutcome.fail 401 "Invalid Azure SWA principal: missing user identity"

/-- Result of a login request: a minted token or an HTTPException. -/
inductive LoginResult where
  | token (t : Token)
  | fail (status : Nat) (detail : String)
deriving DecidableEq

/-- Embedding of the login endpoint of function_app.py.  It performs no
check of the configured method: it fetches the test users through
get_jwt_test_users, verifies the credentials, and on success mints a
token whose lifetime is the configured number of minutes. -/
def login_azure (verifyPwd : String → String → Bool) (method : AuthMethod)
    (envUsers : List (String × String)) (secret_key algorithm : String)
    (expiration_minutes : Int) (now1 now2 : Int)
    (username password : String) : LoginResult :=
  let test_users := get_jwt_test_users method envUsers
  if verify_test_user verifyPwd username password test_users then
    LoginResult.token (create_access_token [("sub", username)] secret_key algorithm
      (expiration_minutes * 60) now1 now2)
  else LoginResult.fail 401 "Incorrect username or password"

/-- Embedding of the login endpoint of app/routers/auth.py in the
container-app variant: it first rejects with 400 when the configured
method is not jwt, then verifies the credentials and mints a token. -/
def login_container (verifyPwd : String → String → Bool) (method : AuthMethod)
    (envUsers : List (String × String)) (secret_key algorithm : String)
    (expiration_minutes : Int) (now1 now2 : Int)
    (username password : String) : LoginResult :=
  if method ≠ AuthMethod.jwt then
    LoginResult.fail 400 "JWT authentication not enabled (AUTH_METHOD != jwt)"
  else
    let test_users := get_jwt_test_users method envUsers
    if verify_test_user verifyPwd username password test_users then
      LoginResult.token (create_access_token [("sub", username)] secret_key algorithm
        (expiration_minutes * 60) now1 now2)
    else LoginResult.fail 401 "Invalid username or password"

/-- Embedding of authentication_middleware from function_app.py.  The
request path is never consulted: for api_key every request must carry a
valid X-API-Key header, with distinct messages for a missing header and
an invalid key; other recognised methods pass through; the unhandled
azure_ad value yields 501. -/
def authentication_middleware (method : AuthMethod) (valid_keys : List String)
    (req : HttpRequest) : MiddlewareResult :=
  match method with
  | AuthMethod.none => MiddlewareResult.pass
  | AuthMethod.api_key =>
    match headerGet req "X-API-Key" with
    | Option.none => MiddlewareResult.reject 401 "Missing X-API-Key header"
    | Option.some k =>
      if k = "" then MiddlewareResult.reject 401 "Missing X-API-Key header"
      else if validate_api_key (Option.some k) valid_keys then MiddlewareResult.pass
      else MiddlewareResult.reject 401 "Invalid API key"
  | AuthMethod.jwt => MiddlewareResult.pass
  | AuthMethod.azure_swa => MiddlewareResult.pass
  | AuthMethod.apim => MiddlewareResult.pass
  | AuthMethod.azure_ad =>
    MiddlewareResult.reject 501 "Authentication method not implemented"

/-- The fixed list of paths exempt from authentication in the
container-app auth_middleware, in source order. -/
def exemptPaths : List String :=
  ["/api/v1/health", "/api/v1/health/ready", "/api/v1/health/live",
   "/api/v1/docs", "/api/v1/redoc", "/api/v1/openapi.json",
   "/api/v1/auth/login", "/"]

/-- Embedding of auth_middleware from app/main.py in the container-app
variant: exempt paths pass with no credential check; under api_key a
request failing validate_api_key is rejected with one shared message;
everything else passes through to dependencies or handlers. -/
def auth_middleware (method : AuthMethod) (valid_keys : List String)
    (req : HttpRequest) : MiddlewareResult :=
  if req.path ∈ exemptPaths then MiddlewareResult.pass
  else if method = AuthMethod.api_key
      ∧ validate_api_key (headerGet req "X-API-Key") valid_keys = false then
    MiddlewareResult.reject 401 "Invalid or missing API key"
  else MiddlewareResult.pass

/-- Claim type URI that carries the email address in a nested SWA claims
list, as used by the test suite and the APIM simulator. -/
def emailClaimTyp : String :=
  "http://schemas.xmlsoap.org/ws/2005/05/identity/claims/emailaddress"

/-- Concrete decoder used to exercise the bearer parsing theorem: one
known good token, everything else invalid. -/
def demoDecode : String → DecodeResult :=
  fun t => if t = "tok123" then DecodeResult.payload (Option.some "alice")
           else DecodeResult.invalid

/-- Concrete password verifier used to exercise the login theorems. -/
def demoVerify : String → String → Bool :=
  fun password hashed => hashed == ("hash:" ++ password)

/-- Password verifier that accepts everything, used to show that the
Azure Functions login still rejects when the method is not jwt. -/
def demoAcceptAll : String → String → Bool := fun _ _ => true

/-- Apply a function to the last entry of a list of words. -/
def mapLast (f : List Char → List Char) : List (List Char) → List (List Char)
  | [] => []
  | [w] => [f w]
  | w :: ws => w :: mapLast f ws

theorem dropL_sat_append (ws cs : List Char)
    (h : ∀ c ∈ ws, pyIsSpace c = true) : dropL (ws ++ cs) = dropL cs := by
  induction ws with
  | nil => rfl
  | cons c ws ih =>
    have hc : pyIsSpace c = true := h c (by simp)
    simp only [dropL, List.cons_append, List.dropWhile_cons, hc, if_true]
    exact ih (fun d hd => h d (by simp [hd]))

theorem dropL_eq_nil (ws : List Char) (h : ∀ c ∈ ws, pyIsSpace c = true) :
    dropL ws = [] := by
  simpa [dropL, List.dropWhile_eq_nil_iff] using h

theorem dropL_append_of_ne_nil (w ws : List Char) (hw : dropL w ≠ []) :
    dropL (w ++ ws) = dropL w ++ ws := by
  induction w with
  | nil => simp [dropL] at hw
  | cons c w ih =>
    by_cases hc : pyIsSpace c = true
    · simp only [dropL, List.dropWhile_cons, hc, if_true] at hw
      simp only [dropL, List.cons_append, List.dropWhile_cons, hc, if_true]
      exact ih hw
    · simp [dropL, List.dropWhile_cons, hc]

theorem stripChars_spaces_append (ws w : List Char)
    (h : ∀ c ∈ ws, pyIsSpace c = true) : stripChars (ws ++ w) = stripChars w := by
  simp only [stripChars, dropL_sat_append ws w h]

theorem stripChars_append_spaces (w ws : List Char)
    (h : ∀ c ∈ ws, pyIsSpace c = true) : stripChars (w ++ ws) = stripChars w := by
  by_cases hw : dropL w = []
  · have hsatw : ∀ c ∈ w, pyIsSpace c = true := by
      simpa [dropL, List.dropWhile_eq_nil_iff] using hw
    have h1 : dropL (w ++ ws) = [] := by
      rw [dropL_sat_append w ws hsatw]
      exact dropL_eq_nil ws h
    simp only [stripChars, h1, hw]
  · rw [stripChars, dropL_append_of_ne_nil w ws hw, List.reverse_append, stripChars,
      dropL_sat_append ws.reverse _ (fun c hc => h c (List.mem_reverse.mp hc))]

theorem wordsAux_spaces_left (ws cs : List Char)
    (h : ∀ c ∈ ws, pyIsSpace c = true) :
    wordsAux [] (ws ++ cs) = wordsAux [] cs := by
  induction ws with
  | nil => rfl
  | cons c ws ih =>
    have hc : pyIsSpace c = true := h c (by simp)
    simp only [List.cons_append, wordsAux, hc, if_true]
    exact ih (fun d hd => h d (by simp [hd]))

theorem wordsAux_spaces_nil (ws : List Char)
    (h : ∀ c ∈ ws, pyIsSpace c = true) :
    ∀ cur, wordsAux cur ws = wordsAux cur [] := by
  induction ws with
  | nil => intro cur; rfl
  | cons c ws ih =>
    intro cur
    have hc : pyIsSpace c = true := h c (by simp)
    have ih0 := ih (fun d hd => h d (by simp [hd])) []
    by_cases hcur : cur = []
    · subst hcur
      simp only [wordsAux, hc, if_true, if_pos rfl]
      simpa using ih0
    · simp only [wordsAux, hc, if_true, if_neg hcur]
      rw [ih0]
      rfl

theorem wordsAux_append_spaces (ws : List Char)
    (h : ∀ c ∈ ws, pyIsSpace c = true) :
    ∀ cur cs, wordsAux cur (cs ++ ws) = wordsAux cur cs := by
  intro cur cs
  induction cs generalizing cur with
  | nil => simpa using wordsAux_spaces_nil ws h cur
  | cons c cs ih =>
    by_cases hc : pyIsSpace c = true
    · by_cases hcur : cur = [] <;>
        simp [wordsAux, hc, hcur, ih]
    · simp [wordsAux, hc, ih]

theorem pySplit_strip (s : String) : pySplit (pyStrip s) = pySplit s := by
  show wordsAux [] (stripChars s.data) = wordsAux [] s.data
  have hfront : wordsAux [] s.data = wordsAux [] (dropL s.data) := by
    conv_lhs =>
      rw [← List.takeWhile_append_dropWhile (p := pyIsSpace) (l := s.data)]
    exact wordsAux_spaces_left _ _ (fun c hc => List.mem_takeWhile_imp hc)
  have hdecomp : dropL s.data =
      (dropL (dropL s.data).reverse).reverse
        ++ (List.takeWhile pyIsSpace (dropL s.data).reverse).reverse := by
    conv_lhs =>
      rw [← List.reverse_reverse (dropL s.data),
        ← List.takeWhile_append_dropWhile (p := pyIsSpace) (l := (dropL s.data).reverse)]
    rw [List.reverse_append]
    rfl
  have hback : wordsAux [] (dropL s.data)
      = wordsAux [] ((dropL (dropL s.data).reverse).reverse) := by
    conv_lhs => rw [hdecomp]
    exact wordsAux_append_spaces _
      (fun c hc => List.mem_takeWhile_imp (List.mem_reverse.mp hc)) [] _
  rw [hfront, hback]
  rfl

theorem pySplit_empty : pySplit "" = [] := rfl

theorem pyIsSpace_ne_comma (c : Char) (h : pyIsSpace c = true) : c ≠ ',' := by
  intro hc
  subst hc
  simp [pyIsSpace] at h

theorem splitComma_ne_nil (cs : List Char) : splitComma cs ≠ [] := by
  induction cs with
  | nil => simp [splitComma]
  | cons c cs ih =>
    by_cases hc : c = ','
    · simp [splitComma, hc]
    · cases hsp : splitComma cs with
      | nil => exact absurd hsp ih
      | cons w ws => simp [splitComma, hc, hsp]

theorem splitComma_cons_comma (cs : List Char) :
    splitComma (',' :: cs) = [] :: splitComma cs := by
  simp [splitComma]

theorem splitComma_cons_ne (c : Char) (cs : List Char) (hc : c ≠ ',')
    (hd : List Char) (tl : List (List Char)) (hsp : splitComma cs = hd :: tl) :
    splitComma (c :: cs) = (c :: hd) :: tl := by
  simp [splitComma, if_neg hc, hsp]

theorem splitComma_spaces_append (ws cs : List Char)
    (h : ∀ c ∈ ws, pyIsSpace c = true) :
    ∃ hd tl, splitComma cs = hd :: tl ∧ splitComma (ws ++ cs) = (ws ++ hd) :: tl := by
  induction ws with
  | nil =>
    cases hsp : splitComma cs with
    | nil => exact absurd hsp (splitComma_ne_nil cs)
    | cons w ws2 => exact ⟨w, ws2, rfl, by simpa using hsp⟩
  | cons c ws ih =>
    obtain ⟨hd, tl, h1, h2⟩ := ih (fun d hd => h d (by simp [hd]))
    refine ⟨hd, tl, h1, ?_⟩
    have hc : c ≠ ',' := pyIsSpace_ne_comma c (h c (by simp))
    rw [List.cons_append, splitComma_cons_ne c _ hc _ _ h2, List.cons_append]

theorem splitComma_single_of_sat (ws : List Char)
    (h : ∀ c ∈ ws, pyIsSpace c = true) : splitComma ws = [ws] := by
  induction ws with
  | nil => rfl
  | cons c ws ih =>
    have hc : c ≠ ',' := pyIsSpace_ne_comma c (h c (by simp))
    have ih0 := ih (fun d hd => h d (by simp [hd]))
    simp [splitComma, hc, ih0]

theorem splitComma_append_spaces (cs ws : List Char)
    (h : ∀ c ∈ ws, pyIsSpace c = true) :
    splitComma (cs ++ ws) = mapLast (fun w => w ++ ws) (splitComma cs) := by
  induction cs with
  | nil =>
    simp only [List.nil_append, splitComma, mapLast]
    exact splitComma_single_of_sat ws h
  | cons c cs ih =>
    by_cases hc : c = ','
    · subst hc
      rw [List.cons_append, splitComma_cons_comma, ih, splitComma_cons_comma]
      cases hsp : splitComma cs with
      | nil => exact absurd hsp (splitComma_ne_nil cs)
      | cons w ws2 => rfl
    · cases hsp : splitComma cs with
      | nil => exact absurd hsp (splitComma_ne_nil cs)
      | cons w ws2 =>
        cases ws2 with
        | nil =>
          have hsp2 : splitComma (cs ++ ws) = [w ++ ws] := by
            rw [ih, hsp]; rfl
          rw [List.cons_append, splitComma_cons_ne c _ hc _ _ hsp2,
            splitComma_cons_ne c _ hc _ _ hsp]
          rfl
        | cons w2 ws3 =>
          have hsp2 : splitComma (cs ++ ws)
              = w :: mapLast (fun v => v ++ ws) (w2 :: ws3) := by
            rw [ih, hsp]; rfl
          rw [List.cons_append, splitComma_cons_ne c _ hc _ _ hsp2,
            splitComma_cons_ne c _ hc _ _ hsp]
          rfl

theorem mapLast_map_stripChars (ws : List Char)
    (h : ∀ c ∈ ws, pyIsSpace c = true) :
    ∀ l : List (List Char),
      (mapLast (fun w => w ++ ws) l).map stripChars = l.map stripChars := by
  intro l
  induction l with
  | nil => rfl
  | cons w l ih =>
    cases l with
    | nil => simp [mapLast, stripChars_append_spaces w ws h]
    | cons w2 l2 => simpa [mapLast] using ih

theorem map_stripChars_splitComma_strip (cs : List Char) :
    (splitComma (stripChars cs)).map stripChars = (splitComma cs).map stripChars := by
  have hsat_take : ∀ c ∈ List.takeWhile pyIsSpace cs, pyIsSpace c = true :=
    fun c hc => List.mem_takeWhile_imp hc
  obtain ⟨hd, tl, h1, h2⟩ := splitComma_spaces_append
    (List.takeWhile pyIsSpace cs) (dropL cs) hsat_take
  have hfront : (splitComma cs).map stripChars = (splitComma (dropL cs)).map stripChars := by
    conv_lhs =>
      rw [show cs = List.takeWhile pyIsSpace cs ++ dropL cs from
        (List.takeWhile_append_dropWhile (p := pyIsSpace) (l := cs)).symm]
    rw [h2, h1]
    simp [stripChars_spaces_append _ _ hsat_take]
  have hdecomp : dropL cs =
      (dropL (dropL cs).reverse).reverse
        ++ (List.takeWhile pyIsSpace (dropL cs).reverse).reverse := by
    conv_lhs =>
      rw [← List.reverse_reverse (dropL cs),
        ← List.takeWhile_append_dropWhile (p := pyIsSpace) (l := (dropL cs).reverse)]
    rw [List.reverse_append]
    rfl
  have hsat_rev : ∀ c ∈ (List.takeWhile pyIsSpace (dropL cs).reverse).reverse,
      pyIsSpace c = true :=
    fun c hc => List.mem_takeWhile_imp (List.mem_reverse.mp hc)
  have hback : (splitComma (dropL cs)).map stripChars
      = (splitComma ((dropL (dropL cs).reverse).reverse)).map stripChars := by
    conv_lhs => rw [hdecomp]
    rw [splitComma_append_spaces _ _ hsat_rev]
    exact mapLast_map_stripChars _ hsat_rev _
  rw [hfront, hback]
  rfl

theorem map_pyStrip_pySplitComma_strip (s : String) :
    (pySplitComma (pyStrip s)).map pyStrip = (pySplitComma s).map pyStrip := by
  show ((splitComma (stripChars s.data)).map (fun w => String.mk w)).map pyStrip
      = ((splitComma s.data).map (fun w => String.mk w)).map pyStrip
  rw [List.map_map, List.map_map]
  have hfun : ∀ l : List (List Char),
      l.map (pyStrip ∘ fun w => String.mk w)
        = l.map (fun w => String.mk (stripChars w)) := by
    intro l
    induction l with
    | nil => rfl
    | cons w l ih => simp only [List.map_cons, ih]; rfl
  rw [hfun, hfun]
  have := congrArg (fun l => l.map (fun w => String.mk w))
    (map_stripChars_splitComma_strip s.data)
  simpa [List.map_map] using this

/-- C1: under the Jwt method, for a valid token x, any Authorization
header whose whitespace-separated parts are a first part equal to bearer
case-insensitively followed exactly by x authenticates as the sub claim
of x; a first part other than bearer is rejected with the wrong-scheme
401 detail; a bearer first part with a number of parts other than two is
rejected with the malformed-format 401 detail.  Surrounding whitespace
never changes the parts, so it is tolerated. -/
theorem bearer_header_parsing
    (decode : String → DecodeResult) (x u : String)
    (hx : decode x = DecodeResult.payload (Option.some u))
    (h : String) (s : String) (rest : List String)
    (hparts : pySplit h = s :: rest) :
    (pyLower s = "bearer" ∧ rest = [x] →
      jwtAuthenticate decode (Option.some h) = AuthOutcome.ok u)
    ∧ (pyLower s ≠ "bearer" →
      jwtAuthenticate decode (Option.some h)
        = AuthOutcome.fail 401 "Invalid authorization scheme. Expected Bearer")
    ∧ (pyLower s = "bearer" ∧ rest.length ≠ 1 →
      jwtAuthenticate decode (Option.some h)
        = AuthOutcome.fail 401 "Invalid authorization header format") := by
  have hsp : pySplit (pyStrip h) = s :: rest := by
    rw [pySplit_strip]; exact hparts
  have hne : h ≠ "" := by
    intro he
    rw [he, pySplit_empty] at hparts
    cases hparts
  have hsne : pyStrip h ≠ "" := by
    intro he
    rw [he, pySplit_empty] at hsp
    cases hsp
  refine ⟨?_, ?_, ?_⟩
  · rintro ⟨hb, rfl⟩
    simp only [jwtAuthenticate, if_neg hne, if_neg hsne, hsp]
    simp [hb, hx]
  · intro hb
    simp only [jwtAuthenticate, if_neg hne, if_neg hsne, hsp]
    simp [hb]
  · rintro ⟨hb, hlen⟩
    simp only [jwtAuthenticate, if_neg hne, if_neg hsne, hsp]
    have h2 : (s :: rest).length ≠ 2 := by
      simp only [List.length_cons]
      omega
    simp [hb, h2]
    exact fun hh => absurd hh hlen

/-- C1 witness: a concrete padded upper-case bearer header with the known
good token authenticates, and a concrete wrong scheme is rejected. -/
theorem bearer_header_parsing_witness :
    jwtAuthenticate demoDecode (Option.some "  BEARER tok123  ")
      = AuthOutcome.ok "alice"
    ∧ jwtAuthenticate demoDecode (Option.some "Basic tok123")
      = AuthOutcome.fail 401 "Invalid authorization scheme. Expected Bearer" :=
  ⟨(bearer_header_parsing demoDecode "tok123" "alice" (by decide)
      "  BEARER tok123  " "BEARER" ["tok123"] (by decide)).1 ⟨by decide, rfl⟩,
   (bearer_header_parsing demoDecode "tok123" "alice" (by decide)
      "Basic tok123" "Basic" ["tok123"] (by decide)).2.1 (by decide)⟩

/-- C2: decoding a token minted by create_access_token with the same
secret and an allow-listed algorithm, at any instant before its expiry,
succeeds and recovers the sub claim unchanged. -/
theorem token_roundtrip_recovers_sub
    (data : List (String × String)) (u : String)
    (hsub : data.lookup "sub" = Option.some u)
    (secret alg : String) (_halg : alg ∈ validAlgorithms)
    (L : Int) (_hL : 0 < L) (now1 now2 t : Int) (ht : t < now2 + L * 60) :
    ∃ payload iat exp,
      decode_access_token (create_access_token data secret alg (L * 60) now1 now2)
        secret alg t = DecodeOutcome.ok payload iat exp
      ∧ payload.lookup "sub" = Option.some u := by
  refine ⟨data, now1, now2 + L * 60, ?_, hsub⟩
  simp only [decode_access_token, create_access_token]
  rw [if_neg (by simp), if_neg (by omega)]

/-- C2 witness: a concrete claim set, secret, algorithm and lifetime. -/
theorem token_roundtrip_recovers_sub_witness :
    ∃ payload iat exp,
      decode_access_token
        (create_access_token [("sub", "alice")] "s3cret" "HS256" (1 * 60) 0 0)
        "s3cret" "HS256" 30 = DecodeOutcome.ok payload iat exp
      ∧ payload.lookup "sub" = Option.some "alice" :=
  token_roundtrip_recovers_sub [("sub", "alice")] "alice" (by decide)
    "s3cret" "HS256" (by decide) 1 (by decide) 0 0 30 (by decide)

/-- C3 counterexample: the login of the Azure Functions variant, with any
method other than jwt, rejects with status 401 and the generic credential
message rather than a 400 feature-disabled failure, even when the
credentials would verify. -/
theorem azure_login_non_jwt_is_401 :
    login_azure demoAcceptAll AuthMethod.none [("alice", "h")] "s3cret" "HS256"
      30 0 0 "alice" "pw"
      = LoginResult.fail 401 "Incorrect username or password" := by
  decide

/-- C3 amended: only the container-app login rejects a method other than
jwt with the 400 feature-disabled failure; the Azure Functions login has
no method check and rejects with the generic 401 because the test-user
map resolves to empty when the method is not jwt. -/
theorem login_method_check_per_variant
    (verifyPwd : String → String → Bool) (method : AuthMethod)
    (hm : method ≠ AuthMethod.jwt) (envUsers : List (String × String))
    (secret alg : String) (mins now1 now2 : Int) (u p : String) :
    login_container verifyPwd method envUsers secret alg mins now1 now2 u p
      = LoginResult.fail 400 "JWT authentication not enabled (AUTH_METHOD != jwt)"
    ∧ login_azure verifyPwd method envUsers secret alg mins now1 now2 u p
      = LoginResult.fail 401 "Incorrect username or password" := by
  constructor
  · simp only [login_container, if_pos hm]
  · simp only [login_azure, get_jwt_test_users, if_pos hm]
    simp [verify_test_user]

/-- C3 witness: a concrete non-jwt configuration exercising both login
variants. -/
theorem login_method_check_per_variant_witness :
    login_container demoAcceptAll AuthMethod.api_key [("alice", "h")] "s" "HS256"
      30 0 0 "alice" "pw"
      = LoginResult.fail 400 "JWT authentication not enabled (AUTH_METHOD != jwt)"
    ∧ login_azure demoAcceptAll AuthMethod.api_key [("alice", "h")] "s" "HS256"
      30 0 0 "alice" "pw"
      = LoginResult.fail 401 "Incorrect username or password" :=
  login_method_check_per_variant demoAcceptAll AuthMethod.api_key (by decide)
    [("alice", "h")] "s" "HS256" 30 0 0 "alice" "pw"

/-- C4: evaluation of the code at the failing input.  A principal with no
flat identity fields but a nested claims list holding an email-typed
claim is rejected as missing its user identity, although the test suite
expects such a principal to authenticate as the claim value. -/
theorem swa_nested_claims_rejected :
    swaAuthenticate (Option.some (Option.some
      { userDetails := Option.none
        userId := Option.none
        claimsList := Option.some [{ typ := emailClaimTyp, val := "proxy@example.com" }] }))
      = AuthOutcome.fail 401 "Invalid Azure SWA principal: missing user identity" := by
  decide

/-- C5 counterexample: the container-app middleware answers a request
with no X-API-Key header and a request with an invalid key with the very
same 401 detail, so the two cases are not distinguished there. -/
theorem container_api_key_single_message :
    auth_middleware AuthMethod.api_key ["k1"]
      { path := "/api/v1/ipv4/validate", headers := [] }
      = auth_middleware AuthMethod.api_key ["k1"]
        { path := "/api/v1/ipv4/validate", headers := [("X-API-Key", "wrong")] }
    ∧ auth_middleware AuthMethod.api_key ["k1"]
      { path := "/api/v1/ipv4/validate", headers := [] }
      = MiddlewareResult.reject 401 "Invalid or missing API key" := by
  constructor <;> decide

/-- C5 amended: only the Azure Functions middleware distinguishes a
missing X-API-Key header from an invalid key, both as 401; the
container-app middleware rejects both cases with the one shared 401
detail. -/
theorem api_key_messages_per_variant (keys : List String) (req : HttpRequest) :
    (headerGet req "X-API-Key" = Option.none →
      authentication_middleware AuthMethod.api_key keys req
        = MiddlewareResult.reject 401 "Missing X-API-Key header")
    ∧ (∀ k, headerGet req "X-API-Key" = Option.some k → k ≠ "" →
      validate_api_key (Option.some k) keys = false →
      authentication_middleware AuthMethod.api_key keys req
        = MiddlewareResult.reject 401 "Invalid API key")
    ∧ (req.path ∉ exemptPaths →
      validate_api_key (headerGet req "X-API-Key") keys = false →
      auth_middleware AuthMethod.api_key keys req
        = MiddlewareResult.reject 401 "Invalid or missing API key") := by
  refine ⟨?_, ?_, ?_⟩
  · intro hk
    simp only [authentication_middleware, hk]
  · intro k hk hke hv
    simp only [authentication_middleware, hk, if_neg hke, hv]
    simp
  · intro hp hv
    simp only [auth_middleware, if_neg hp, hv]
    simp

/-- C5 witness: concrete missing-key and invalid-key requests for the
Azure Functions middleware and an invalid-key request for the
container-app middleware. -/
theorem api_key_messages_per_variant_witness :
    authentication_middleware AuthMethod.api_key ["k1"]
      { path := "/api/v1/health", headers := [] }
      = MiddlewareResult.reject 401 "Missing X-API-Key header"
    ∧ authentication_middleware AuthMethod.api_key ["k1"]
      { path := "/api/v1/health", headers := [("X-API-Key", "bad")] }
      = MiddlewareResult.reject 401 "Invalid API key"
    ∧ auth_middleware AuthMethod.api_key ["k1"]
      { path := "/api/v1/subnet", headers := [("X-API-Key", "bad")] }
      = MiddlewareResult.reject 401 "Invalid or missing API key" :=
  ⟨(api_key_messages_per_variant ["k1"]
      { path := "/api/v1/health", headers := [] }).1 (by decide),
   (api_key_messages_per_variant ["k1"]
      { path := "/api/v1/health", headers := [("X-API-Key", "bad")] }).2.1
      "bad" (by decide) (by decide) (by decide),
   (api_key_messages_per_variant ["k1"]
      { path := "/api/v1/subnet", headers := [("X-API-Key", "bad")] }).2.2
      (by decide) (by decide)⟩

/-- C6: under the Jwt method, a login with an unknown username and a
login with a known username but a failing password verification produce
the identical observable outcome in each variant: the same 401 status
and the same generic detail. -/
theorem login_username_oracle_free
    (verifyPwd : String → String → Bool) (users : List (String × String))
    (secret alg : String) (mins now1 now2 : Int)
    (u1 p1 u2 p2 hashv : String)
    (h1 : users.lookup u1 = Option.none)
    (h2 : users.lookup u2 = Option.some hashv)
    (h3 : verifyPwd p2 hashv = false) :
    login_azure verifyPwd AuthMethod.jwt users secret alg mins now1 now2 u1 p1
      = login_azure verifyPwd AuthMethod.jwt users secret alg mins now1 now2 u2 p2
    ∧ login_azure verifyPwd AuthMethod.jwt users secret alg mins now1 now2 u1 p1
      = LoginResult.fail 401 "Incorrect username or password"
    ∧ login_container verifyPwd AuthMethod.jwt users secret alg mins now1 now2 u1 p1
      = login_container verifyPwd AuthMethod.jwt users secret alg mins now1 now2 u2 p2
    ∧ login_container verifyPwd AuthMethod.jwt users secret alg mins now1 now2 u1 p1
      = LoginResult.fail 401 "Invalid username or password" := by
  have hv1 : verify_test_user verifyPwd u1 p1 users = false := by
    simp [verify_test_user, h1]
  have hv2 : verify_test_user verifyPwd u2 p2 users = false := by
    simp [verify_test_user, h2, h3]
  have haz : ∀ u p, verify_test_user verifyPwd u p users = false →
      login_azure verifyPwd AuthMethod.jwt users secret alg mins now1 now2 u p
        = LoginResult.fail 401 "Incorrect username or password" := by
    intro u p hv
    simp [login_azure, get_jwt_test_users, hv]
  have hco : ∀ u p, verify_test_user verifyPwd u p users = false →
      login_container verifyPwd AuthMethod.jwt users secret alg mins now1 now2 u p
        = LoginResult.fail 401 "Invalid username or password" := by
    intro u p hv
    simp [login_container, get_jwt_test_users, hv]
  exact ⟨by rw [haz u1 p1 hv1, haz u2 p2 hv2], haz u1 p1 hv1,
    by rw [hco u1 p1 hv1, hco u2 p2 hv2], hco u1 p1 hv1⟩

/-- C6 witness: a concrete user store where carol is absent and bob has
the wrong password; both logins collapse to the same rejection. -/
theorem login_username_oracle_free_witness :
    login_azure demoVerify AuthMethod.jwt [("bob", "hash:pw")] "s" "HS256" 30 0 0
      "carol" "x"
      = login_azure demoVerify AuthMethod.jwt [("bob", "hash:pw")] "s" "HS256" 30 0 0
        "bob" "wrong"
    ∧ login_azure demoVerify AuthMethod.jwt [("bob", "hash:pw")] "s" "HS256" 30 0 0
      "carol" "x"
      = LoginResult.fail 401 "Incorrect username or password"
    ∧ login_container demoVerify AuthMethod.jwt [("bob", "hash:pw")] "s" "HS256" 30 0 0
      "carol" "x"
      = login_container demoVerify AuthMethod.jwt [("bob", "hash:pw")] "s" "HS256" 30 0 0
        "bob" "wrong"
    ∧ login_container demoVerify AuthMethod.jwt [("bob", "hash:pw")] "s" "HS256" 30 0 0
      "carol" "x"
      = LoginResult.fail 401 "Invalid username or password" :=
  login_username_oracle_free demoVerify [("bob", "hash:pw")] "s" "HS256" 30 0 0
    "carol" "x" "bob" "wrong" "hash:pw" (by decide) (by decide) (by decide)

/-- C7: a token minted with a lifetime of L minutes carries integer iat
and exp with exp minus iat within one second of L times 60, the slack
coming from the two separate clock reads in create_access_token. -/
theorem token_lifetime_within_one_second
    (data : List (String × String)) (secret alg : String) (L : Int)
    (now1 now2 : Int) (h1 : now1 ≤ now2) (h2 : now2 ≤ now1 + 1) :
    |((create_access_token data secret alg (L * 60) now1 now2).exp
      - (create_access_token data secret alg (L * 60) now1 now2).iat) - L * 60| ≤ 1 := by
  have he : (create_access_token data secret alg (L * 60) now1 now2).exp
      = now2 + L * 60 := rfl
  have hi : (create_access_token data secret alg (L * 60) now1 now2).iat = now1 := rfl
  rw [he, hi, abs_le]
  omega

/-- C7 witness: concrete clock reads one second apart with a 30 minute
lifetime. -/
theorem token_lifetime_within_one_second_witness :
    |((create_access_token [("sub", "alice")] "s" "HS256" (30 * 60) 1000 1001).exp
      - (create_access_token [("sub", "alice")] "s" "HS256" (30 * 60) 1000 1001).iat)
      - 30 * 60| ≤ 1 :=
  token_lifetime_within_one_second [("sub", "alice")] "s" "HS256" 30 1000 1001
    (by decide) (by decide)

/-- C8: under the api_key method, get_api_keys realises exactly the
comma-split of the configured string with every entry stripped and empty
entries discarded, in order; it errors when the variable is unset or
blank and when every entry is discarded. -/
theorem get_api_keys_spec (env : Option String) :
    (pyStrip (env.getD "") = "" →
      get_api_keys AuthMethod.api_key env
        = Except.error "API_KEYS environment variable required when AUTH_METHOD=api_key")
    ∧ (pyStrip (env.getD "") ≠ ""
        ∧ ((pySplitComma (env.getD "")).map pyStrip).filter (fun k => k ≠ "") = [] →
      get_api_keys AuthMethod.api_key env
        = Except.error "API_KEYS cannot be empty when AUTH_METHOD=api_key")
    ∧ (((pySplitComma (env.getD "")).map pyStrip).filter (fun k => k ≠ "") ≠ [] →
      get_api_keys AuthMethod.api_key env
        = Except.ok (((pySplitComma (env.getD "")).map pyStrip).filter (fun k => k ≠ ""))) := by
  have hkept : ((pySplitComma (pyStrip (env.getD ""))).map pyStrip).filter (fun k => k ≠ "")
      = ((pySplitComma (env.getD "")).map pyStrip).filter (fun k => k ≠ "") := by
    rw [map_pyStrip_pySplitComma_strip]
  refine ⟨?_, ?_, ?_⟩
  · intro he
    simp only [get_api_keys, if_neg (by simp : ¬AuthMethod.api_key ≠ AuthMethod.api_key),
      if_pos he]
  · rintro ⟨hne, hz⟩
    simp only [get_api_keys, if_neg (by simp : ¬AuthMethod.api_key ≠ AuthMethod.api_key),
      if_neg hne]
    rw [if_pos (by rw [hkept]; exact hz)]
  · intro hne
    have hsne : pyStrip (env.getD "") ≠ "" := by
      intro he
      apply hne
      rw [← hkept, he]
      decide
    simp only [get_api_keys, if_neg (by simp : ¬AuthMethod.api_key ≠ AuthMethod.api_key),
      if_neg hsne]
    rw [if_neg (by rw [hkept]; exact hne), hkept]

/-- C8 witness: a concrete key string with padding, an internal empty
entry and two surviving keys in order. -/
theorem get_api_keys_spec_witness :
    get_api_keys AuthMethod.api_key (Option.some "  k1 , , k2  ")
      = Except.ok ["k1", "k2"] := by
  have h := (get_api_keys_spec (Option.some "  k1 , , k2  ")).2.2 (by decide)
  rw [h]
  rfl

/-- C9: the Azure Functions middleware under the api_key method enforces
the X-API-Key check on every request, whatever its path: any request
whose presented key does not validate is rejected with 401 and never
passes through to its handler. -/
theorem azure_middleware_no_exemptions (keys : List String) (req : HttpRequest)
    (h : validate_api_key (headerGet req "X-API-Key") keys = false) :
    (authentication_middleware AuthMethod.api_key keys req
        = MiddlewareResult.reject 401 "Missing X-API-Key header"
      ∨ authentication_middleware AuthMethod.api_key keys req
        = MiddlewareResult.reject 401 "Invalid API key")
    ∧ authentication_middleware AuthMethod.api_key keys req ≠ MiddlewareResult.pass := by
  cases hk : headerGet req "X-API-Key" with
  | none =>
    constructor
    · left
      simp [authentication_middleware, hk]
    · simp [authentication_middleware, hk]
  | some k =>
    by_cases hke : k = ""
    · constructor
      · left
        simp [authentication_middleware, hk, hke]
      · simp [authentication_middleware, hk, hke]
    · rw [hk] at h
      constructor
      · right
        simp [authentication_middleware, hk, hke, h]
      · simp [authentication_middleware, hk, hke, h]

/-- C9 witness: the health path without a key is still rejected. -/
theorem azure_middleware_no_exemptions_witness :
    (authentication_middleware AuthMethod.api_key ["k1"]
        { path := "/api/v1/health", headers := [] }
        = MiddlewareResult.reject 401 "Missing X-API-Key header"
      ∨ authentication_middleware AuthMethod.api_key ["k1"]
        { path := "/api/v1/health", headers := [] }
        = MiddlewareResult.reject 401 "Invalid API key")
    ∧ authentication_middleware AuthMethod.api_key ["k1"]
      { path := "/api/v1/health", headers := [] } ≠ MiddlewareResult.pass :=
  azure_middleware_no_exemptions ["k1"]
    { path := "/api/v1/health", headers := [] } (by decide)

/-- C10: in the container-app middleware every request whose path is in
the fixed exempt list passes with no credential check, whatever the
configured method and headers. -/
theorem container_middleware_exempt_paths (method : AuthMethod)
    (keys : List String) (path : String) (headers : List (String × String))
    (h : path ∈ exemptPaths) :
    auth_middleware method keys { path := path, headers := headers }
      = MiddlewareResult.pass := by
  simp only [auth_middleware, if_pos h]

/-- C10 witness: the login path passes under the api_key method with no
key presented. -/
theorem container_middleware_exempt_paths_witness :
    auth_middleware AuthMethod.api_key ["k1"]
      { path := "/api/v1/auth/login", headers := [] } = MiddlewareResult.pass :=
  container_middleware_exempt_paths AuthMethod.api_key ["k1"]
    "/api/v1/auth/login" [] (by decide)

end SubnetCalc
